import Mathlib

/-!
Shallow embedding of `CxxUtilities.hpp` (namespace `cxxutils`) and proofs
about it.

The core is the bounded-domain dispatcher `constexpr_apply`, which forwards
to `detail::apply_helper`.  The C++ helper unrolls a fold over the
compile-time constants `0, 1, …, N-1` (an `std::index_sequence`), keeping a
local `result` and a `bool hasValue = false`; for each constant `c` in
ascending order it executes
`if ((!hasValue) && c == value) { result = …; hasValue = true; }`.

Embedding choices, matched line by line against the source:

* The runtime selector `value` is modelled as an `Int` (the enum `E` may be
  signed; constants cast from `std::size_t` are the naturals `0 … N-1`, so a
  negative `value` can never compare equal to a constant).
* Handler side effects are observed through an `invoked` log that records the
  constants at which the handler body ran, in order.
* In value mode `OurReturnType` is `std::optional<OptionalUnpacker<…>>` and
  `OurReturnType result;` default-constructs to an empty optional, modelled
  as `none`.  In signal mode `OurReturnType` is `bool` and `bool result;` is
  DEFAULT-INITIALIZED, i.e. holds an indeterminate value until assigned.
  That indeterminate initial content is modelled faithfully by an explicit
  parameter `init`: the C++ function returns whatever garbage `init` was
  whenever no constant matches.
* The assignment `result = lambda(c)` converts the handler's return to
  `OurReturnType`: a handler returning plain `β` is wrapped into `some`,
  while a handler already returning `std::optional β` is assigned through
  unchanged (the `OptionalUnpacker` collapse of double wrapping).
-/

namespace CxxUtilities

/-- The local state of `detail::apply_helper` during its fold, plus an
`invoked` log observing at which constants the handler body ran. -/
structure DispatchState (ρ : Type) where
  result : ρ
  hasValue : Bool
  invoked : List Nat
deriving DecidableEq, Repr

/-- One step of the fold expression in `detail::apply_helper`: the body of the
per-constant lambda, for the constant `c`. -/
def apply_step {ρ : Type} (assign : Nat → ρ) (value : Int) (st : DispatchState ρ)
    (c : Nat) : DispatchState ρ :=
  if st.hasValue = false ∧ (c : Int) = value then
    { result := assign c, hasValue := true, invoked := st.invoked ++ [c] }
  else st

/-- `detail::apply_helper`: fold the per-constant lambda over the constants
`0, …, N-1` in ascending order.  `init` is the initial content of the local
`result` variable; `assign c` is the value `result` is assigned when the
handler runs at constant `c`. -/
def apply_helper {ρ : Type} (init : ρ) (assign : Nat → ρ) (value : Int)
    (N : Nat) : DispatchState ρ :=
  (List.range N).foldl (apply_step assign value) ⟨init, false, []⟩

/-- `constexpr_apply` with a void-returning handler (signal mode):
`OurReturnType` is `bool`, the local `bool result;` starts with the
indeterminate value `init`, and a match assigns `true`. -/
def constexpr_apply_signal (init : Bool) (value : Int) (N : Nat) :
    DispatchState Bool :=
  apply_helper init (fun _ => true) value N

/-- `constexpr_apply` with a handler returning a plain (non-optional) value
(value mode): `result` default-constructs to an absent optional and a match
assigns `some (g c)`. -/
def constexpr_apply_value {β : Type} (g : Nat → β) (value : Int) (N : Nat) :
    DispatchState (Option β) :=
  apply_helper none (fun c => some (g c)) value N

/-- `constexpr_apply` with a handler that itself returns an optional: by the
`OptionalUnpacker` collapse, `result` has the same optional type and the
handler's optional is assigned through unchanged. -/
def constexpr_apply_value_opt {β : Type} (h : Nat → Option β) (value : Int)
    (N : Nat) : DispatchState (Option β) :=
  apply_helper none h value N

/-!
Numeric helpers.  `std::min(a, b)` is `(b < a) ? b : a` and
`std::max(a, b)` is `(a < b) ? b : a`; they are embedded as `cpp_min` /
`cpp_max` over any linear order, mirroring the `operator<` requirement.
-/

/-- `std::min(a, b)`. -/
def cpp_min {α : Type} [LinearOrder α] (a b : α) : α := if b < a then b else a

/-- `std::max(a, b)`. -/
def cpp_max {α : Type} [LinearOrder α] (a b : α) : α := if a < b then b else a

/-- `cxxutils::Range<T>`: a pair of a lower and an upper bound. -/
structure Range (α : Type) where
  min : α
  max : α
deriving DecidableEq, Repr

/-- `cxxutils::clamp(value, range)`:
`std::min(std::max(value, range.min), range.max)`. -/
def clamp {α : Type} [LinearOrder α] (value : α) (r : Range α) : α :=
  cpp_min (cpp_max value r.min) r.max

/-- The variadic `cxxutils::min`: `min(arg0) = arg0` and
`min(arg0, args...) = std::min(arg0, min(args...))`.  The argument pack is a
head plus a list of further arguments, so the list is always non-empty. -/
def varMin {α : Type} [LinearOrder α] : α → List α → α
  | arg0, [] => arg0
  | arg0, a :: args => cpp_min arg0 (varMin a args)

/-- The variadic `cxxutils::max`: `max(arg0) = arg0` and
`max(arg0, args...) = std::max(arg0, max(args...))`. -/
def varMax {α : Type} [LinearOrder α] : α → List α → α
  | arg0, [] => arg0
  | arg0, a :: args => cpp_max arg0 (varMax a args)

/-- `cxxutils::range(args...) = Range{ .min = min(args...), .max = max(args...) }`. -/
def range {α : Type} [LinearOrder α] (arg0 : α) (args : List α) : Range α :=
  { min := varMin arg0 args, max := varMax arg0 args }

/-!
The lazy singleton factory `cxxutils::getOrCreate`.  The C++ keeps a
function-local `static std::weak_ptr<Type> _weak`, whose one-time initializer
invokes the factory (storing the new instance), and on every later call does
`if (auto ptr = _weak.lock()) return ptr;` before re-creating the instance
and re-seating `_weak`.  For a single-threaded sequence of calls this is a
state machine:

* `ranOnce` — whether the static initializer has already run;
* `weak` — `some id` when the weak pointer refers to a still-live instance
  `id`, `none` when it is empty or expired (every shared handle dropped);
* `nextId` — a supply of fresh identities, one consumed per factory call.

A call returns the new state, the identity of the instance behind the
returned shared handle, and whether the factory was invoked during the call.
`releaseAll` models every outstanding shared handle being dropped between
calls, which destroys the instance and expires the weak pointer.
-/

/-- The process-wide state behind `getOrCreate`'s `static std::weak_ptr`. -/
structure SingletonState where
  nextId : Nat
  ranOnce : Bool
  weak : Option Nat
deriving DecidableEq, Repr

/-- One single-threaded call to `cxxutils::getOrCreate(factory, args...)`:
`(state afterwards, id of the instance the returned handle owns, whether the
factory was invoked)`. -/
def getOrCreate (st : SingletonState) : SingletonState × Nat × Bool :=
  if st.ranOnce = false then
    ({ nextId := st.nextId + 1, ranOnce := true, weak := some st.nextId },
      st.nextId, true)
  else
    match st.weak with
    | some id => (st, id, false)
    | none =>
      ({ nextId := st.nextId + 1, ranOnce := true, weak := some st.nextId },
        st.nextId, true)

/-- All outstanding shared handles are dropped: the instance dies and the
weak pointer expires. -/
def releaseAll (st : SingletonState) : SingletonState := { st with weak := none }

/-!
Theorems.
-/

/-- Closed form of the helper's fold: a value in `[0, N)` is matched exactly
once, at its own constant; any other value leaves the initial state (and in
particular leaves `result` holding the initial content `init`). -/
theorem apply_helper_eq {ρ : Type} (init : ρ) (assign : Nat → ρ) (value : Int)
    (N : Nat) :
    apply_helper init assign value N =
      if 0 ≤ value ∧ value < (N : Int) then
        ⟨assign value.toNat, true, [value.toNat]⟩
      else ⟨init, false, []⟩ := by
  induction N with
  | zero =>
    rw [if_neg (by omega)]
    rfl
  | succ n ih =>
    have hstep : apply_helper init assign value (n + 1)
        = apply_step assign value (apply_helper init assign value n) n := by
      rw [apply_helper, apply_helper, List.range_succ, List.foldl_append,
        List.foldl_cons, List.foldl_nil]
    rw [hstep, ih]
    by_cases h : 0 ≤ value ∧ value < (n : Int)
    · rw [if_pos h, if_pos ⟨h.1, by push_cast; omega⟩]
      rw [apply_step]
      simp
    · rw [if_neg h]
      by_cases hv : value = (n : Int)
      · rw [if_pos (by push_cast; omega)]
        rw [apply_step, if_pos ⟨rfl, hv.symm⟩]
        subst hv
        simp
      · rw [if_neg (by push_cast; omega)]
        rw [apply_step, if_neg (by exact fun hc => hv hc.2.symm)]

/-- C1: for a runtime value outside `[0, N)` the handler body never runs
(`invoked = []`) and value mode returns an absent optional — but in signal
mode the C++ returns the local `bool result;` unassigned, i.e. its
indeterminate initial content, not necessarily `false`.  Evaluated at the
failing input `value = 5`, `N = 3` with indeterminate content `true`, the
call returns `true` although nothing was dispatched. -/
theorem out_of_domain_signal_result_indeterminate :
    (constexpr_apply_value (fun c => 2 * c) 5 3).result = none
    ∧ (constexpr_apply_value (fun c => 2 * c) 5 3).invoked = []
    ∧ (constexpr_apply_signal true 5 3).invoked = []
    ∧ (constexpr_apply_signal true 5 3).result = true
    ∧ (constexpr_apply_signal false 5 3).result = false := by
  refine ⟨?_, ?_, ?_, ?_, ?_⟩ <;> decide

/-- C2: for `N ≥ 1` and a runtime value in `[0, N)`, a void-returning
handler yields `true` and a handler returning the constant `k` yields
`some k`, whatever the indeterminate initial content of the signal-mode
result was. -/
theorem in_domain_dispatch {β : Type} (init : Bool) (k : β) (value : Int)
    (N : Nat) (h0 : 0 ≤ value) (hN : value < (N : Int)) :
    (constexpr_apply_signal init value N).result = true
    ∧ (constexpr_apply_value (fun _ => k) value N).result = some k := by
  rw [constexpr_apply_signal, constexpr_apply_value, apply_helper_eq,
    apply_helper_eq, if_pos ⟨h0, hN⟩, if_pos ⟨h0, hN⟩]
  exact ⟨rfl, rfl⟩

/-- C2 witness: the spec's concrete scenario shape — domain of size 3,
value `GREEN = 1`, handler returning the constant `2` — yields `true` in
signal mode and `present 2` in value mode. -/
theorem in_domain_dispatch_witness :
    (constexpr_apply_signal false 1 3).result = true
    ∧ (constexpr_apply_value (fun _ => (2 : Nat)) 1 3).result = some 2 :=
  in_domain_dispatch false 2 1 3 (by decide) (by decide)

/-- C3: in every call at most one handler instantiation runs, and when the
value lies in `[0, N)` exactly one runs — at the constant equal to the value
— whose assignment is the final result; the `hasValue` flag keeps any later
constant of the ascending scan from invoking the handler again or
overwriting the result. -/
theorem single_dispatch {ρ : Type} (init : ρ) (assign : Nat → ρ) (value : Int)
    (N : Nat) :
    (apply_helper init assign value N).invoked.length ≤ 1
    ∧ (0 ≤ value → value < (N : Int) →
        (apply_helper init assign value N).invoked = [value.toNat]
        ∧ (apply_helper init assign value N).result = assign value.toNat) := by
  rw [apply_helper_eq]
  by_cases h : 0 ≤ value ∧ value < (N : Int)
  · rw [if_pos h]
    exact ⟨by simp, fun _ _ => ⟨rfl, rfl⟩⟩
  · rw [if_neg h]
    exact ⟨by simp, fun h0 hN => absurd ⟨h0, hN⟩ h⟩

/-- C3 witness: with domain size 3 and value 1, exactly the constant 1 is
dispatched and its assignment is the result. -/
theorem single_dispatch_witness :
    (apply_helper (0 : Nat) (fun c => c + 10) 1 3).invoked.length ≤ 1
    ∧ (apply_helper (0 : Nat) (fun c => c + 10) 1 3).invoked = [(1 : Int).toNat]
    ∧ (apply_helper (0 : Nat) (fun c => c + 10) 1 3).result
      = (fun c => c + 10) (1 : Int).toNat := by
  have h := single_dispatch (0 : Nat) (fun c => c + 10) 1 3
  exact ⟨h.1, (h.2 (by decide) (by decide)).1, (h.2 (by decide) (by decide)).2⟩

/-- C4: with `boundN = 0` the scan is empty, so the handler never runs and
value mode returns an absent optional for every runtime value — but in
signal mode the C++ returns the never-assigned `bool result;`, i.e. its
indeterminate initial content, not necessarily `false`.  Evaluated at the
failing input `N = 0`, `value = 7`: with indeterminate content `true` the
call returns `true`. -/
theorem empty_domain_signal_result_indeterminate :
    (constexpr_apply_value (fun c => c) 7 0).result = none
    ∧ (constexpr_apply_value (fun c => c) 7 0).invoked = []
    ∧ (constexpr_apply_signal true 7 0).invoked = []
    ∧ (constexpr_apply_signal true 7 0).result = true
    ∧ (constexpr_apply_signal false 7 0).result = false := by
  refine ⟨?_, ?_, ?_, ?_, ?_⟩ <;> decide

/-- C5 counterexample: with the optional-returning handler that always
returns an absent optional over a domain of size 1, the dispatched call at
`value = 0` (its `invoked` log shows the handler ran at constant 0) returns
exactly the same result as the undispatched call at `value = 5` (empty log):
the returned optional is absent in both, and no other flag is returned, so
the two calls are not distinguishable from the result. -/
theorem dispatched_absent_indistinguishable :
    (constexpr_apply_value_opt (fun _ => (none : Option Nat)) 0 1).invoked = [0]
    ∧ (constexpr_apply_value_opt (fun _ => (none : Option Nat)) 5 1).invoked = []
    ∧ (constexpr_apply_value_opt (fun _ => (none : Option Nat)) 0 1).result
      = (constexpr_apply_value_opt (fun _ => (none : Option Nat)) 5 1).result := by
  refine ⟨?_, ?_, ?_⟩ <;> decide

/-- C5 amended: in value mode with an optional-returning handler, the
returned optional is exactly the handler's own optional when the value is
dispatched and absent otherwise; the `hasValue` flag is local and not
returned, so presence of the result reflects the handler's payload, not
whether dispatch occurred, and a dispatched handler returning an absent
optional is indistinguishable from no dispatch. -/
theorem value_opt_result_is_handler_payload {β : Type} (h : Nat → Option β)
    (value : Int) (N : Nat) :
    (constexpr_apply_value_opt h value N).result
      = if 0 ≤ value ∧ value < (N : Int) then h value.toNat else none := by
  rw [constexpr_apply_value_opt, apply_helper_eq]
  by_cases hc : 0 ≤ value ∧ value < (N : Int)
  · rw [if_pos hc, if_pos hc]
  · rw [if_neg hc, if_neg hc]

/-- C6: two signal-mode calls with the identical runtime value `5`, the
identical bound `N = 1` and the same (void, pure) handler return different
results, because the unmatched call returns the never-assigned local
`bool result;` and so depends on the indeterminate content that variable
started with — the dispatcher is not referentially transparent in its three
inputs. -/
theorem signal_result_depends_on_indeterminate_content :
    (constexpr_apply_signal true 5 1).result
      ≠ (constexpr_apply_signal false 5 1).result := by
  decide

/-- `std::min` agrees with the order-theoretic minimum. -/
theorem cpp_min_eq_min {α : Type} [LinearOrder α] (a b : α) :
    cpp_min a b = min a b := by
  rw [cpp_min]
  rcases lt_or_le b a with h | h
  · rw [if_pos h, min_eq_right h.le]
  · rw [if_neg (not_lt.mpr h), min_eq_left h]

/-- `std::max` agrees with the order-theoretic maximum. -/
theorem cpp_max_eq_max {α : Type} [LinearOrder α] (a b : α) :
    cpp_max a b = max a b := by
  rw [cpp_max]
  rcases lt_or_le a b with h | h
  · rw [if_pos h, max_eq_right h.le]
  · rw [if_neg (not_lt.mpr h), max_eq_left h]

/-- C7: for every value and range, `clamp` computes
`min (max value range.min) range.max`; being a total Lean function of its
two arguments, it has no failure mode. -/
theorem clamp_eq_min_max {α : Type} [LinearOrder α] (value : α) (r : Range α) :
    clamp value r = min (max value r.min) r.max := by
  rw [clamp, cpp_min_eq_min, cpp_max_eq_max]

/-- The variadic minimum is one of the arguments and is below all of them. -/
theorem varMin_mem_le {α : Type} [LinearOrder α] (arg0 : α) (args : List α) :
    varMin arg0 args ∈ arg0 :: args
    ∧ ∀ x ∈ arg0 :: args, varMin arg0 args ≤ x := by
  induction args generalizing arg0 with
  | nil => exact ⟨List.mem_singleton.mpr rfl, by simp [varMin]⟩
  | cons a args ih =>
    rw [varMin, cpp_min_eq_min]
    rcases le_total arg0 (varMin a args) with h | h
    · rw [min_eq_left h]
      refine ⟨List.mem_cons_self _ _, ?_⟩
      intro x hx
      rcases List.mem_cons.mp hx with hx | hx
      · exact hx ▸ le_refl _
      · exact le_trans h ((ih a).2 x hx)
    · rw [min_eq_right h]
      refine ⟨List.mem_cons_of_mem _ ((ih a).1), ?_⟩
      intro x hx
      rcases List.mem_cons.mp hx with hx | hx
      · exact hx ▸ h
      · exact (ih a).2 x hx

/-- The variadic maximum is one of the arguments and is above all of them. -/
theorem varMax_mem_ge {α : Type} [LinearOrder α] (arg0 : α) (args : List α) :
    varMax arg0 args ∈ arg0 :: args
    ∧ ∀ x ∈ arg0 :: args, x ≤ varMax arg0 args := by
  induction args generalizing arg0 with
  | nil => exact ⟨List.mem_singleton.mpr rfl, by simp [varMax]⟩
  | cons a args ih =>
    rw [varMax, cpp_max_eq_max]
    rcases le_total (varMax a args) arg0 with h | h
    · rw [max_eq_left h]
      refine ⟨List.mem_cons_self _ _, ?_⟩
      intro x hx
      rcases List.mem_cons.mp hx with hx | hx
      · exact hx ▸ le_refl _
      · exact le_trans ((ih a).2 x hx) h
    · rw [max_eq_right h]
      refine ⟨List.mem_cons_of_mem _ ((ih a).1), ?_⟩
      intro x hx
      rcases List.mem_cons.mp hx with hx | hx
      · exact hx ▸ h
      · exact (ih a).2 x hx

/-- C8: over any non-empty argument list (a head `arg0` and a tail `args`),
the variadic `min` returns the minimum of all arguments, the variadic `max`
the maximum, and `range` returns `Range {min, max}` — the tightest interval
containing every argument: it contains them all and both bounds are attained
by arguments.  All three are total Lean functions with no failure mode. -/
theorem min_max_range_tightest {α : Type} [LinearOrder α] (arg0 : α)
    (args : List α) :
    (varMin arg0 args ∈ arg0 :: args
      ∧ ∀ x ∈ arg0 :: args, varMin arg0 args ≤ x)
    ∧ (varMax arg0 args ∈ arg0 :: args
      ∧ ∀ x ∈ arg0 :: args, x ≤ varMax arg0 args)
    ∧ (range arg0 args).min = varMin arg0 args
    ∧ (range arg0 args).max = varMax arg0 args := by
  exact ⟨varMin_mem_le arg0 args, varMax_mem_ge arg0 args, rfl, rfl⟩

/-- C9: in a single-threaded sequence of calls, `getOrCreate` invokes the
factory exactly when no live instance exists (first ever call, or the weak
pointer has expired), seating the weak pointer on the fresh instance it
returns; when a live instance exists it returns a handle to that same
instance without invoking the factory and without changing the state. -/
theorem getOrCreate_lazy_singleton (st : SingletonState) :
    (∀ id, st.ranOnce = true → st.weak = some id →
      getOrCreate st = (st, id, false))
    ∧ (st.ranOnce = false ∨ st.weak = none →
      (getOrCreate st).2.2 = true
      ∧ (getOrCreate st).2.1 = st.nextId
      ∧ (getOrCreate st).1.weak = some st.nextId) := by
  constructor
  · intro id hran hweak
    rw [getOrCreate, if_neg (by rw [hran]; exact fun h => Bool.noConfusion h),
      hweak]
  · intro hdead
    rcases hdead with hran | hweak
    · rw [getOrCreate, if_pos hran]
      exact ⟨rfl, rfl, rfl⟩
    · rw [getOrCreate]
      by_cases hran : st.ranOnce = false
      · rw [if_pos hran]
        exact ⟨rfl, rfl, rfl⟩
      · rw [if_neg hran, hweak]
        exact ⟨rfl, rfl, rfl⟩

/-- C9 witness: a state with a live instance `3` returns that instance
without invoking the factory; the very first call, and a call after every
handle was released, invoke the factory and seat the weak pointer on the
fresh instance they return. -/
theorem getOrCreate_lazy_singleton_witness :
    getOrCreate ⟨5, true, some 3⟩ = (⟨5, true, some 3⟩, 3, false)
    ∧ (getOrCreate ⟨0, false, none⟩).2.2 = true
    ∧ (getOrCreate (releaseAll ⟨5, true, some 3⟩)).2.2 = true := by
  have h1 := (getOrCreate_lazy_singleton ⟨5, true, some 3⟩).1 3 rfl rfl
  have h2 := (getOrCreate_lazy_singleton ⟨0, false, none⟩).2 (Or.inl rfl)
  have h3 := (getOrCreate_lazy_singleton (releaseAll ⟨5, true, some 3⟩)).2
    (Or.inr rfl)
  exact ⟨h1, h2.1, h3.1⟩

/-- C10: when the range's bounds are inverted (`range.min > range.max`),
`clamp` returns `range.max` regardless of the value; and for all inputs the
result never exceeds `range.max`, so the upper bound takes precedence over
the lower one. -/
theorem clamp_upper_bound_precedence {α : Type} [LinearOrder α] (value : α)
    (r : Range α) :
    (r.max < r.min → clamp value r = r.max) ∧ clamp value r ≤ r.max := by
  constructor
  · intro h
    rw [clamp, cpp_min_eq_min, cpp_max_eq_max]
    exact min_eq_right (le_of_lt (lt_of_lt_of_le h (le_max_right value r.min)))
  · rw [clamp, cpp_min_eq_min]
    exact min_le_right _ _

/-- C10 witness: with the inverted range `[10, 2]` the value `3` clamps to
the upper bound `2`, which the result does not exceed. -/
theorem clamp_upper_bound_precedence_witness :
    clamp (3 : Int) ⟨10, 2⟩ = 2 ∧ clamp (3 : Int) ⟨10, 2⟩ ≤ 2 := by
  have h := clamp_upper_bound_precedence (3 : Int) ⟨10, 2⟩
  exact ⟨h.1 (by decide), h.2⟩

end CxxUtilities
